import Mathlib

/-!
Shallow embedding of the buzzbench load-test engine.

Source of truth: `internal/runner/runner.go` (the dispatcher `RunTest`, the
request executor `executeRequest`, and the variable engine
`setupVariableContext` / `processVariables` / `getVariableValue`), together
with the data model in `internal/api/models.go`.

Modelling conventions:
* Go `int` and `time.Duration` are 64-bit machine integers; they are modelled
  as `Int`, with explicit two's-complement wrapping (`wrapInt64`) at every
  arithmetic site a claim can drive into overflow (the sequential cursor
  update, the deadline conversion to nanoseconds, and the random-range size
  `max - min + 1`), and with `Int.tdiv` wherever Go division (truncation
  toward zero) occurs.  A Go runtime panic (division by zero, `rand.Intn`
  with a non-positive bound) is modelled as `none`.
* `float64` arithmetic in the aggregator is idealized as exact rational
  arithmetic (`ℚ`); `Duration.Milliseconds()` is the truncated division by
  10^6 and `Duration.Seconds()` is the exact value in seconds.
* Calls into the environment (the pseudo-random source, `uuid.New`,
  `time.Now`) are oracle streams carried in the runtime state, advanced by
  one position per draw.
* Concurrency: the Go mutex serializes every sequential-variable resolution;
  a resolution is modelled as the state transformer executed inside that
  critical section, and the outcome stream consumed by the aggregator is the
  list of results in arrival order.
-/

namespace Buzzbench

/-- `api.ErrorData` (internal/api/models.go): status key (possibly empty) and
message of one recorded error. -/
structure ErrorData where
  status : String
  message : String
deriving Repr, DecidableEq

/-- `api.RequestResult` (internal/api/models.go): the raw outcome of one
request.  `duration` is in nanoseconds (Go `time.Duration`), `error` is the
optional transport-level failure cause, `timestampUnix` is the unix second of
the instant the request began (`Timestamp.Unix()`). -/
structure RequestResult where
  duration : Int
  status : Int
  error : Option String
  timestampUnix : Int
deriving Repr, DecidableEq

/-- `api.TestConfiguration` (internal/api/models.go).  The `variables` field
is the raw JSON payload; its parsed form enters the model as the oracle
result of `json.Unmarshal` (see `setupVariables`). -/
structure TestConfiguration where
  id : String
  name : String
  url : String
  method : String
  requests : Int
  concurrency : Int
  timeoutSecs : Int
  authToken : String
  body : String
  useVariables : Bool
  variablesJson : String
deriving Repr, DecidableEq

/-- Two's-complement wrap of a 64-bit Go `int` / `time.Duration`: the
machine arithmetic of the sequential cursor update `v.current += v.Increment`,
of the deadline conversion to nanoseconds, and of the random-range size. -/
def wrapInt64 (x : Int) : Int :=
  (x + 2 ^ 63) % 2 ^ 64 - 2 ^ 63

/-- runner.go:66-71.  The single run deadline, in nanoseconds:
`time.Duration(config.Requests/config.Concurrency+10)*time.Second`.
Go `/` on integers truncates toward zero and panics when the divisor is
zero (`none`); the quotient (which Go wraps at MinInt64 / -1 instead of
panicking), the `+10`, and the multiplication by `time.Second` (10^9) are
all int64 operations that wrap two's-complement. -/
def runDeadlineNs (requests concurrency : Int) : Option Int :=
  if concurrency = 0 then none
  else some (wrapInt64 (wrapInt64 (wrapInt64 (requests.tdiv concurrency) + 10) * 1000000000))

/-- One HTTP request as assembled by `executeRequest` before it is issued:
method, URL, optional body, and the two headers the runner can set. -/
structure BuiltRequest where
  method : String
  url : String
  body : Option String
  contentType : Option String
  authorization : Option String
deriving Repr, DecidableEq

/-- runner.go:271-298.  Request assembly from the (already
variable-resolved) URL and body: GET/DELETE carry no body; every other
method gets the body, substituting a literal `\x7b\x7d` when it is empty, plus a
`Content-Type: application/json` header; a non-empty auth token is sent
verbatim in `Authorization`. -/
def buildRequest (method url body authToken : String) : BuiltRequest :=
  if method = "GET" ∨ method = "DELETE" then
    { method := method, url := url, body := none, contentType := none,
      authorization := if authToken = "" then none else some authToken }
  else
    { method := method, url := url,
      body := some (if body = "" then "\x7b\x7d" else body),
      contentType := some "application/json",
      authorization := if authToken = "" then none else some authToken }

/-- runner.go:36-48, one variable definition together with its private
mutable cursor (`current`, the internal counter for the sequential
strategy). -/
structure Variable where
  name : String
  type : String
  strategy : String
  value : String
  startValue : Int
  endValue : Int
  increment : Int
  minValue : Int
  maxValue : Int
  template : String
  current : Int
deriving Repr, DecidableEq

/-- runner.go:50-56, `VariableContext`.  `variables` is the
`map[string]*Variable` as an association list keyed by unique names (built
by `insertVar`).  The shared pseudo-random source is the oracle stream
`randStream` read at `randPos` (one draw per `rand.Intn` / `rand.Float64`
call); fresh UUIDs and `time.Now` instants are likewise oracle streams.
The mutex serializes resolutions; a resolution is one state transformer. -/
structure VariableContext where
  vars : List Variable
  randStream : Nat → Nat
  randPos : Nat
  uuidStream : Nat → String
  uuidPos : Nat
  nowStream : Nat → String
  nowPos : Nat

/-- Map lookup `ctx.Variables[name]`. -/
def lookupVar (l : List Variable) (n : String) : Option Variable :=
  l.find? (fun v => v.name == n)

/-- Map insert `ctx.Variables[v.Name] = v`: replace the entry with the same
name, or append a fresh one. -/
def insertVar (l : List Variable) (v : Variable) : List Variable :=
  if l.any (fun w => w.name == v.name) then
    l.map (fun w => if w.name == v.name then v else w)
  else l ++ [v]

/-- In-place update of the cursor of the named variable (writing through
the `*Variable` pointer stored in the map). -/
def updateVarCurrent (l : List Variable) (n : String) (c : Int) : List Variable :=
  l.map (fun v => if v.name == n then { v with current := c } else v)

/-- runner.go:340-349, the per-variable initialization performed by
`setupVariableContext`: a sequential variable with increment ≤ 0 gets
increment 1, and its cursor starts at `startValue`. -/
def initVariable (v : Variable) : Variable :=
  let v1 := if v.strategy = "sequential" ∧ v.increment ≤ 0 then { v with increment := 1 } else v
  if v1.strategy = "sequential" then { v1 with current := v1.startValue } else v1

/-- runner.go:332-349: the variable map built from the parsed definitions
(the list is the oracle result of `json.Unmarshal` on the raw JSON; a parse
failure yields the empty list and the run proceeds without variables). -/
def setupVariables (parsed : List Variable) : List Variable :=
  parsed.foldl (fun acc v => insertVar acc (initVariable v)) []

/-- `rand.Intn n`: a draw in [0, n); Go panics when n ≤ 0 (`none`).  An
arbitrary draw of the source is `draw % n` as `draw` ranges over `Nat`. -/
def randIntn (draw : Nat) (n : Int) : Option Int :=
  if n ≤ 0 then none else some ((draw : Int) % n)

/-- `rand.Float64`: a uniform draw in [0, 1), idealized as a 53-bit
rational. -/
def randFloat64 (draw : Nat) : ℚ :=
  ((draw % 2 ^ 53 : Nat) : ℚ) / (2 ^ 53 : ℚ)

/-- Round to the nearest integer, ties to even — the rounding of Go float
formatting under the rational idealization of float64. -/
def roundHalfEven (q : ℚ) : Int :=
  if q - ⌊q⌋ < 1 / 2 then ⌊q⌋
  else if q - ⌊q⌋ > 1 / 2 then ⌊q⌋ + 1
  else if ⌊q⌋ % 2 = 0 then ⌊q⌋ else ⌊q⌋ + 1

/-- `fmt.Sprintf` with two decimal places applied to the idealized float
value: render `roundHalfEven (q * 100)` as a fixed-point decimal. -/
def formatFloat2 (q : ℚ) : String :=
  let n := roundHalfEven (q * 100)
  (if n < 0 then "-" else "") ++
    toString (n.natAbs / 100) ++ "." ++
    (if n.natAbs % 100 < 10 then "0" else "") ++ toString (n.natAbs % 100)

/-- The cursor update of one sequential resolution (runner.go:398-407):
`v.current += v.Increment` in 64-bit machine arithmetic, then wrap back to
`startValue` only when the advanced cursor exceeds `endValue` while
`endValue > startValue`. -/
def seqNext (v : Variable) : Int :=
  let advanced := wrapInt64 (v.current + v.increment)
  if v.endValue > v.startValue ∧ advanced > v.endValue then v.startValue
  else advanced

/-- runner.go:377-439, `getVariableValue`.  Returns the generated value or
the resolution error, together with the advanced runtime state; `none` is a
Go panic (`rand.Intn` with a non-positive bound in the random/integer
strategy, whose range size `v.MaxValue-v.MinValue+1` is int64 arithmetic
and wraps).  The template strategy textually substitutes the two built-ins
only (`strings.ReplaceAll`), drawing `$random` once unconditionally as in
the source. -/
def getVariableValue (name : String) (ctx : VariableContext) (requestIndex : Int) :
    Option (Except String String × VariableContext) :=
  if name = "$index" then some (.ok (toString requestIndex), ctx)
  else if name = "$random" then
    match randIntn (ctx.randStream ctx.randPos) 10000 with
    | none => none
    | some k => some (.ok (toString k), { ctx with randPos := ctx.randPos + 1 })
  else
    match lookupVar ctx.vars name with
    | none => some (.error ("undefined variable: " ++ name), ctx)
    | some v =>
      if v.strategy = "static" then some (.ok v.value, ctx)
      else if v.strategy = "sequential" then
        some (.ok (toString v.current),
          { ctx with vars := updateVarCurrent ctx.vars name (seqNext v) })
      else if v.strategy = "random" then
        if v.type = "integer" then
          match randIntn (ctx.randStream ctx.randPos)
              (wrapInt64 (wrapInt64 (v.maxValue - v.minValue) + 1)) with
          | none => none
          | some k =>
            some (.ok (toString (wrapInt64 (k + v.minValue))),
              { ctx with randPos := ctx.randPos + 1 })
        else if v.type = "float" then
          let val := (v.minValue : ℚ) +
            randFloat64 (ctx.randStream ctx.randPos) * ((v.maxValue : ℚ) - (v.minValue : ℚ))
          some (.ok (formatFloat2 val), { ctx with randPos := ctx.randPos + 1 })
        else
          match randIntn (ctx.randStream ctx.randPos) 10000 with
          | none => none
          | some k =>
            some (.ok ("random-" ++ toString k), { ctx with randPos := ctx.randPos + 1 })
      else if v.strategy = "uuid" then
        some (.ok (ctx.uuidStream ctx.uuidPos), { ctx with uuidPos := ctx.uuidPos + 1 })
      else if v.strategy = "timestamp" then
        some (.ok (ctx.nowStream ctx.nowPos), { ctx with nowPos := ctx.nowPos + 1 })
      else if v.strategy = "template" then
        match randIntn (ctx.randStream ctx.randPos) 10000 with
        | none => none
        | some k =>
          let t1 := v.template.replace "\x7b\x7b$index\x7d\x7d" (toString requestIndex)
          let t2 := t1.replace "\x7b\x7b$random\x7d\x7d" (toString k)
          some (.ok t2, { ctx with randPos := ctx.randPos + 1 })
      else some (.error ("unsupported variable strategy: " ++ v.strategy), ctx)

/-- The leftmost-match attempt of the regex `\x7b\x7b([^\x7d]+)\x7d\x7d` at a
point just after two opening braces: the candidate name is the maximal run
of non-closing-brace characters; the match succeeds when that run is
non-empty and followed by two closing braces, returning the name and the
remainder after the whole match. -/
def splitPlaceholder (rest : List Char) : Option (List Char × List Char) :=
  match rest.takeWhile (fun c => c != '\x7d'), rest.dropWhile (fun c => c != '\x7d') with
  | c0 :: nm, '\x7d' :: '\x7d' :: rest2 => some (c0 :: nm, rest2)
  | _, _ => none

/-- The regex replacement loop of runner.go:361-371
(`ReplaceAllStringFunc`): scan left to right for non-overlapping matches of
`\x7b\x7b([^\x7d]+)\x7d\x7d` and replace each by the result of the stateful
callback `f`, which receives the whole match text; a failed match attempt
re-starts one character further, exactly as the regex engine does.  `none`
propagates a panic from the callback. -/
def replaceVars {St : Type} (f : String → St → Option (String × St)) :
    (l : List Char) → St → Option (List Char × St)
  | '\x7b' :: '\x7b' :: rest, st =>
    match hs : splitPlaceholder rest with
    | some (nm, rest2) =>
      match f (String.mk ('\x7b' :: '\x7b' :: (nm ++ ['\x7d', '\x7d']))) st with
      | none => none
      | some (rep, st1) =>
        match replaceVars f rest2 st1 with
        | none => none
        | some (out, st2) => some (rep.data ++ out, st2)
    | none =>
      match replaceVars f ('\x7b' :: rest) st with
      | none => none
      | some (out, st1) => some ('\x7b' :: out, st1)
  | c :: rest, st =>
    match replaceVars f rest st with
    | none => none
    | some (out, st1) => some (c :: out, st1)
  | [], st => some ([], st)
termination_by l => l.length
decreasing_by
  · simp only [splitPlaceholder] at hs
    split at hs
    next c0 nm2 rest3 htw hdw =>
      injection hs with hs1
      have h2 : rest3 = rest2 := congrArg Prod.snd hs1
      have h3 : rest3.length = rest2.length := by rw [h2]
      have h := (List.dropWhile_sublist (l := rest) (fun c => c != '\x7d')).length_le
      rw [hdw] at h
      simp at h h3 ⊢
      omega
    next => exact absurd hs (by simp)
  · simp
  · simp

/-- The names the scanner of `replaceVars` matches, left to right (the same
recursion, keeping only the text between the braces). -/
def matchedNames : (l : List Char) → List String
  | '\x7b' :: '\x7b' :: rest =>
    match hs : splitPlaceholder rest with
    | some (nm, rest2) => String.mk nm :: matchedNames rest2
    | none => matchedNames ('\x7b' :: rest)
  | _ :: rest => matchedNames rest
  | [] => []
termination_by l => l.length
decreasing_by
  · simp only [splitPlaceholder] at hs
    split at hs
    next c0 nm2 rest3 htw hdw =>
      injection hs with hs1
      have h2 : rest3 = rest2 := congrArg Prod.snd hs1
      have h3 : rest3.length = rest2.length := by rw [h2]
      have h := (List.dropWhile_sublist (l := rest) (fun c => c != '\x7d')).length_le
      rw [hdw] at h
      simp at h h3 ⊢
      omega
    next => exact absurd hs (by simp)
  · simp
  · simp

/-- The callback of runner.go:362-370: extract the name (`match[2:len-2]`),
resolve it, and on a resolution error log and return the original match
text unchanged. -/
def varCallback (requestIndex : Int) (m : String) (ctx : VariableContext) :
    Option (String × VariableContext) :=
  let varName := String.mk ((m.data.drop 2).dropLast.dropLast)
  match getVariableValue varName ctx requestIndex with
  | none => none
  | some (.error _, ctx1) => some (m, ctx1)
  | some (.ok v, ctx1) => some (v, ctx1)

/-- runner.go:355-374, `processVariables`: empty input is returned as-is;
otherwise every placeholder is replaced through `varCallback`.  The second
component of the returned pair is the Go error value, which is literally
`nil` on every return path. -/
def processVariables (input : String) (ctx : VariableContext) (requestIndex : Int) :
    Option ((String × Option String) × VariableContext) :=
  if input = "" then some ((input, none), ctx)
  else
    match replaceVars (varCallback requestIndex) input.data ctx with
    | none => none
    | some (out, ctx1) => some ((String.mk out, none), ctx1)

/-- The build of the placeholder text `\x7b\x7bname\x7d\x7d` around a name. -/
def mkMatch (n : String) : String :=
  String.mk ('\x7b' :: '\x7b' :: (n.data ++ ['\x7d', '\x7d']))

/-- Resolve the same variable `count` times in strict assignment order,
collecting the generated values (failures and panics abort with `none`). -/
def resolveTimes (name : String) (ctx : VariableContext) (i : Int) :
    (count : Nat) → Option (List String × VariableContext)
  | 0 => some ([], ctx)
  | count + 1 =>
    match getVariableValue name ctx i with
    | some (.ok v, ctx1) =>
      match resolveTimes name ctx1 i count with
      | some (vs, ctx2) => some (v :: vs, ctx2)
      | none => none
    | _ => none

/-- Outcome of the variable phase of `executeRequest` (runner.go:236-266):
either an early zero-duration error outcome is pushed and the request is
abandoned, or execution proceeds to request construction with the final URL
and body. -/
inductive VarPhaseResult where
  | earlyError (outcome : RequestResult)
  | proceed (url : String) (body : String) (ctx : Option VariableContext)

/-- runner.go:236-266.  When variables are enabled and a context exists,
the URL is resolved first, then — for POST/PUT/PATCH only — the body; a
non-nil resolution error would be pushed as a `Duration: 0, Status: 0`
outcome stamped with the current instant `now`.  `none` is a panic inside
resolution. -/
def executeVarPhase (cfg : TestConfiguration) (varCtx : Option VariableContext)
    (reqIdx : Int) (now : Int) : Option VarPhaseResult :=
  match varCtx, cfg.useVariables with
  | some ctx, true =>
    (match processVariables cfg.url ctx reqIdx with
    | none => none
    | some ((_, some e), _) =>
      some (.earlyError { duration := 0, status := 0, error := some e, timestampUnix := now })
    | some ((u, none), ctx1) =>
      if cfg.method = "POST" ∨ cfg.method = "PUT" ∨ cfg.method = "PATCH" then
        match processVariables cfg.body ctx1 reqIdx with
        | none => none
        | some ((_, some e), _) =>
          some (.earlyError { duration := 0, status := 0, error := some e, timestampUnix := now })
        | some ((b, none), ctx2) => some (.proceed u b (some ctx2))
      else some (.proceed u cfg.body (some ctx1)))
  | _, _ => some (.proceed cfg.url cfg.body varCtx)

/-- `net/http.StatusText` (Go standard library): the standard reason phrase
of a status code, or the empty string for unknown codes.  Restricted to the
common codes; no claim inspects the phrase itself. -/
def statusText (code : Int) : String :=
  if code = 200 then "OK"
  else if code = 201 then "Created"
  else if code = 202 then "Accepted"
  else if code = 204 then "No Content"
  else if code = 301 then "Moved Permanently"
  else if code = 302 then "Found"
  else if code = 304 then "Not Modified"
  else if code = 400 then "Bad Request"
  else if code = 401 then "Unauthorized"
  else if code = 403 then "Forbidden"
  else if code = 404 then "Not Found"
  else if code = 405 then "Method Not Allowed"
  else if code = 408 then "Request Timeout"
  else if code = 429 then "Too Many Requests"
  else if code = 500 then "Internal Server Error"
  else if code = 501 then "Not Implemented"
  else if code = 502 then "Bad Gateway"
  else if code = 503 then "Service Unavailable"
  else if code = 504 then "Gateway Timeout"
  else ""

/-- Bump of the status-code histogram `result.StatusCodes[statusKey]++`
(Go map as an association list in first-appearance order). -/
def bumpCount (l : List (String × Nat)) (k : String) : List (String × Nat) :=
  if l.any (fun p => p.1 == k) then
    l.map (fun p => if p.1 == k then (p.1, p.2 + 1) else p)
  else l ++ [(k, 1)]

/-- Append of one per-second sample
`timelinePoints[second] = append(timelinePoints[second], ms)` (Go map as an
association list in first-appearance order; iteration order of the Go map
is unspecified, this model fixes first-appearance order). -/
def appendTimeline (l : List (Int × List ℚ)) (s : Int) (ms : ℚ) : List (Int × List ℚ) :=
  if l.any (fun p => p.1 == s) then
    l.map (fun p => if p.1 == s then (p.1, p.2 ++ [ms]) else p)
  else l ++ [(s, [ms])]

/-- The running state of the aggregation loop of runner.go:133-177:
counters, duration extremes (nanoseconds), histogram, error list and
per-second samples. -/
structure AggState where
  totalCount : Nat
  successCount : Nat
  totalDuration : Int
  minDuration : Int
  maxDuration : Int
  statusCodes : List (String × Nat)
  errors : List ErrorData
  timeline : List (Int × List ℚ)
deriving Repr, DecidableEq

/-- The loop initialization of runner.go:134-139: `minDuration` starts at
`time.Hour` (3.6e12 nanoseconds), `maxDuration` at zero. -/
def initAggState : AggState :=
  { totalCount := 0, successCount := 0, totalDuration := 0,
    minDuration := 3600000000000, maxDuration := 0,
    statusCodes := [], errors := [], timeline := [] }

/-- The body of the result loop, runner.go:142-177, for one received
outcome: count it; a transport error is recorded and skips the rest
(`continue`); otherwise tally the status, classify 200-399 as success and
anything else as an error keyed by status, accumulate the duration, update
the extremes, and bucket the sample by unix second
(`float64(res.Duration.Milliseconds())`). -/
def processOutcome (st : AggState) (res : RequestResult) : AggState :=
  let st1 := { st with totalCount := st.totalCount + 1 }
  match res.error with
  | some msg => { st1 with errors := st1.errors ++ [{ status := "", message := msg }] }
  | none =>
    let st2 := { st1 with statusCodes := bumpCount st1.statusCodes (toString res.status) }
    let st3 :=
      if 200 ≤ res.status ∧ res.status < 400 then
        { st2 with successCount := st2.successCount + 1 }
      else
        { st2 with errors :=
            st2.errors ++ [{ status := toString res.status, message := statusText res.status }] }
    let st4 := { st3 with totalDuration := st3.totalDuration + res.duration }
    let st5 := if res.duration < st4.minDuration then { st4 with minDuration := res.duration } else st4
    let st6 := if res.duration > st5.maxDuration then { st5 with maxDuration := res.duration } else st5
    { st6 with timeline :=
        appendTimeline st6.timeline res.timestampUnix ((res.duration.tdiv 1000000 : Int) : ℚ) }

/-- The whole result loop over the outcomes in arrival order. -/
def aggregate (outcomes : List RequestResult) : AggState :=
  outcomes.foldl processOutcome initAggState

/-- One reported timeline point (`api.TimelinePoint`). -/
structure TimelinePoint where
  timestamp : ℚ
  responseTime : ℚ
  activeUsers : ℚ
deriving Repr, DecidableEq

/-- `api.TestResult`, the summary returned by `RunTest` (float64 fields
idealized as `ℚ`). -/
structure TestResult where
  testConfigurationID : String
  url : String
  method : String
  requests : Int
  concurrency : Int
  successRate : ℚ
  avgResponseTime : ℚ
  minResponseTime : ℚ
  maxResponseTime : ℚ
  requestsPerSecond : ℚ
  statusCodes : List (String × Nat)
  errors : List ErrorData
  timeline : List TimelinePoint
deriving Repr, DecidableEq

/-- runner.go:80-89 and 179-206: the summary assembled after the loop.
`wallNs` is the measured wall-clock duration `time.Since(startTime)` in
nanoseconds; rates divide by its exact value in seconds, the average
divides the truncated milliseconds of `totalDuration` by the outcome
count, and min/max are reported only when at least one success occurred.
The timeline averages each second bucket (`sum / len`). -/
def buildTestResult (cfg : TestConfiguration) (outcomes : List RequestResult)
    (wallNs : Int) : TestResult :=
  let st := aggregate outcomes
  let base : TestResult :=
    { testConfigurationID := cfg.id, url := cfg.url, method := cfg.method,
      requests := cfg.requests, concurrency := cfg.concurrency,
      successRate := 0, avgResponseTime := 0, minResponseTime := 0,
      maxResponseTime := 0, requestsPerSecond := 0,
      statusCodes := st.statusCodes, errors := st.errors,
      timeline := st.timeline.map (fun p =>
        { timestamp := (p.1 : ℚ),
          responseTime := (p.2.foldl (· + ·) 0) / (p.2.length : ℚ),
          activeUsers := (p.2.length : ℚ) }) }
  if 0 < st.totalCount then
    { base with
      successRate := (st.successCount : ℚ) / (st.totalCount : ℚ) * 100,
      avgResponseTime := ((st.totalDuration.tdiv 1000000 : Int) : ℚ) / (st.totalCount : ℚ),
      requestsPerSecond := (st.totalCount : ℚ) / ((wallNs : ℚ) / 1000000000),
      minResponseTime :=
        if 0 < st.successCount then ((st.minDuration.tdiv 1000000 : Int) : ℚ) else 0,
      maxResponseTime :=
        if 0 < st.successCount then ((st.maxDuration.tdiv 1000000 : Int) : ℚ) else 0 }
  else base

/-- runner.go:59-216, the data-flow skeleton of `RunTest`: the deadline is
computed before anything else (a zero concurrency panics there, before any
request is issued); the outcomes that arrived on the result channel before
it closed and the measured wall-clock duration are the oracle inputs of the
aggregation. -/
def runTest (cfg : TestConfiguration) (outcomes : List RequestResult)
    (wallNs : Int) : Option TestResult :=
  match runDeadlineNs cfg.requests cfg.concurrency with
  | none => none
  | some _ => some (buildTestResult cfg outcomes wallNs)

/-- Success classification of the aggregator (runner.go:145-156): no
transport failure and a status in 200-399. -/
def isSuccess (r : RequestResult) : Bool :=
  r.error.isNone && (decide (200 ≤ r.status) && decide (r.status < 400))

/-- An outcome that reached the duration bookkeeping: no transport failure
(whatever the HTTP status). -/
def isProcessedOk (r : RequestResult) : Bool :=
  r.error.isNone

/-- Reading of claim C4 (spec words, for comparison with the code): the
maximum latency computed only over the durations of successful outcomes,
in truncated milliseconds, zero when there is no success. -/
def specMaxSuccessMs (l : List RequestResult) : ℚ :=
  ((((l.filter isSuccess).map RequestResult.duration).foldl max 0).tdiv 1000000 : Int)

/-- Reading of claim C5 (spec words, for comparison with the code): the
mean over all processed outcomes of the truncated-millisecond durations,
transport errors included. -/
def specAvgAllMs (l : List RequestResult) : ℚ :=
  (((l.map RequestResult.duration).sum.tdiv 1000000 : Int) : ℚ) / (l.length : ℚ)

/-- A concrete runtime state for witnesses: no variables, all oracle
streams constant. -/
def sampleCtx : VariableContext :=
  { vars := [], randStream := fun _ => 7, randPos := 0,
    uuidStream := fun _ => "00000000-0000-0000-0000-000000000000", uuidPos := 0,
    nowStream := fun _ => "2026-01-01T00:00:00Z", nowPos := 0 }

/-- A concrete configuration for witnesses. -/
def sampleConfig : TestConfiguration :=
  { id := "t1", name := "sample", url := "http://localhost/ping", method := "GET",
    requests := 5, concurrency := 2, timeoutSecs := 5, authToken := "",
    body := "", useVariables := false, variablesJson := "" }

/-- A concrete configuration with variables enabled, for witnesses. -/
def sampleVarConfig : TestConfiguration :=
  { sampleConfig with useVariables := true }

/-- The sequential variable of the spec example: start 0, end 2,
increment 1. -/
def seqVarDef : Variable :=
  { name := "c", type := "integer", strategy := "sequential", value := "",
    startValue := 0, endValue := 2, increment := 1, minValue := 0,
    maxValue := 0, template := "", current := 0 }

/-- A sequential variable with end ≤ start whose configured increment
drives the 64-bit cursor into overflow: start = increment = 2^62,
end = 0. -/
def overflowVarDef : Variable :=
  { name := "o", type := "integer", strategy := "sequential", value := "",
    startValue := 4611686018427387904, endValue := 0,
    increment := 4611686018427387904, minValue := 0, maxValue := 0,
    template := "", current := 0 }

/-- A random integer variable with max < min (range size -1): resolving it
panics in `rand.Intn`. -/
def badVarDef : Variable :=
  { name := "bad", type := "integer", strategy := "random", value := "",
    startValue := 0, endValue := 0, increment := 0, minValue := 5,
    maxValue := 3, template := "", current := 0 }

/-- A random integer variable with representable bounds min ≤ max whose
inclusive range size 2^63 + 2 overflows int64. -/
def bigRangeVarDef : Variable :=
  { name := "big", type := "integer", strategy := "random", value := "",
    startValue := 0, endValue := 0, increment := 0,
    minValue := -4611686018427387905, maxValue := 4611686018427387904,
    template := "", current := 0 }

/-- A random integer variable with min = max = 5. -/
def fiveVarDef : Variable :=
  { name := "r", type := "integer", strategy := "random", value := "",
    startValue := 0, endValue := 0, increment := 0, minValue := 5,
    maxValue := 5, template := "", current := 0 }

end Buzzbench

namespace Buzzbench

/-- Unfolding of `splitPlaceholder` when the match succeeds: the suffix
after the two opening braces is the non-empty closing-brace-free name, the
two closing braces, and the remainder. -/
theorem splitPlaceholder_eq_some (rest nm rest2 : List Char)
    (h : splitPlaceholder rest = some (nm, rest2)) :
    rest = nm ++ '\x7d' :: '\x7d' :: rest2 ∧ nm ≠ [] := by
  unfold splitPlaceholder at h
  split at h
  next c0 nm2 rest3 htw hdw =>
    injection h with h1
    have hfst : c0 :: nm2 = nm := congrArg Prod.fst h1
    have hsnd : rest3 = rest2 := congrArg Prod.snd h1
    have hall := List.takeWhile_append_dropWhile (p := fun c => c != '\x7d') (l := rest)
    rw [htw, hdw, hfst, hsnd] at hall
    exact ⟨hall.symm, hfst ▸ (by simp)⟩
  next => exact absurd h (by simp)

/-- Equation of `replaceVars` on two opening braces with a successful
placeholder match. -/
theorem replaceVars_brace_some {St : Type} (f : String → St → Option (String × St))
    (rest nm rest2 : List Char) (st : St) (h : splitPlaceholder rest = some (nm, rest2)) :
    replaceVars f ('\x7b' :: '\x7b' :: rest) st =
      match f (String.mk ('\x7b' :: '\x7b' :: (nm ++ ['\x7d', '\x7d']))) st with
      | none => none
      | some (rep, st1) =>
        match replaceVars f rest2 st1 with
        | none => none
        | some (out, st2) => some (rep.data ++ out, st2) := by
  rw [replaceVars]
  split
  next nm2 rest3 hs =>
    rw [h] at hs
    injection hs with h1
    injection h1 with ha hb
    subst ha
    subst hb
    rfl
  next hs => rw [h] at hs; exact absurd hs (by simp)

/-- Equation of `replaceVars` on two opening braces with a failed match
attempt: emit one brace and re-start one character further. -/
theorem replaceVars_brace_none {St : Type} (f : String → St → Option (String × St))
    (rest : List Char) (st : St) (h : splitPlaceholder rest = none) :
    replaceVars f ('\x7b' :: '\x7b' :: rest) st =
      match replaceVars f ('\x7b' :: rest) st with
      | none => none
      | some (out, st1) => some ('\x7b' :: out, st1) := by
  rw [replaceVars]
  split
  next nm2 rest3 hs => rw [h] at hs; exact absurd hs (by simp)
  next hs => rfl

/-- Equation of `replaceVars` away from a double opening brace. -/
theorem replaceVars_cons_fallback {St : Type} (f : String → St → Option (String × St))
    (c : Char) (cs : List Char) (st : St)
    (h : ∀ rest2 : List Char, c = '\x7b' → cs = '\x7b' :: rest2 → False) :
    replaceVars f (c :: cs) st =
      match replaceVars f cs st with
      | none => none
      | some (out, st1) => some (c :: out, st1) :=
  replaceVars.eq_2 f st c cs h

/-- Equation of `matchedNames` on a successful placeholder match. -/
theorem matchedNames_brace_some (rest nm rest2 : List Char)
    (h : splitPlaceholder rest = some (nm, rest2)) :
    matchedNames ('\x7b' :: '\x7b' :: rest) = String.mk nm :: matchedNames rest2 := by
  rw [matchedNames]
  split
  next nm2 rest3 hs =>
    rw [h] at hs
    injection hs with h1
    injection h1 with ha hb
    subst ha
    subst hb
    rfl
  next hs => rw [h] at hs; exact absurd hs (by simp)

/-- Equation of `matchedNames` on a failed match attempt. -/
theorem matchedNames_brace_none (rest : List Char) (h : splitPlaceholder rest = none) :
    matchedNames ('\x7b' :: '\x7b' :: rest) = matchedNames ('\x7b' :: rest) := by
  rw [matchedNames]
  split
  next nm2 rest3 hs => rw [h] at hs; exact absurd hs (by simp)
  next hs => rfl

/-- Equation of `matchedNames` away from a double opening brace. -/
theorem matchedNames_cons_fallback (c : Char) (cs : List Char)
    (h : ∀ rest2 : List Char, c = '\x7b' → cs = '\x7b' :: rest2 → False) :
    matchedNames (c :: cs) = matchedNames cs :=
  matchedNames.eq_2 c cs h

/-- The 64-bit wrap is the identity inside the representable range. -/
theorem wrapInt64_eq_self (x : Int) (h1 : -(2 ^ 63) ≤ x) (h2 : x < 2 ^ 63) :
    wrapInt64 x = x := by
  unfold wrapInt64
  have h3 : (0 : Int) ≤ x + 2 ^ 63 := by omega
  have h4 : x + 2 ^ 63 < 2 ^ 64 := by omega
  rw [Int.emod_eq_of_lt h3 h4]
  omega

/-- C1 counterexample: with requests = 5 and concurrency = 2 the code
computes 5/2 + 10 = 12 seconds (12e9 nanoseconds), while
ceil(5/2) + 10 = 13 seconds, so the deadline is not
`ceil(requests / concurrency) + 10` seconds. -/
theorem deadline_is_not_ceil_at_5_2 :
    runDeadlineNs 5 2 = some (12 * 1000000000) ∧
    (⌈(5 : ℚ) / 2⌉ + 10 : ℤ) = 13 ∧ (12 : ℤ) ≠ 13 := by
  refine ⟨by decide, ?_, by decide⟩
  have h : ⌈(5 : ℚ) / 2⌉ = 3 := by rw [Int.ceil_eq_iff] <;> norm_num
  rw [h]
  norm_num

/-- C1 (amended): for every specification with a non-negative request count
and positive concurrency whose second count floor(requests/concurrency)+10
stays within the int64 nanosecond limit (≤ 9 223 372 036 s), `RunTest`
establishes the run deadline as floor(requests / concurrency) + 10 seconds
— Go integer division truncates toward zero, the floor on this domain.
Beyond that limit the 64-bit conversion to nanoseconds wraps: at
requests = 9.3e9 and concurrency = 1 the programmed deadline is the
negative (already expired) duration -9146744063709551616 ns. -/
theorem runDeadline_floor_div (requests concurrency : Int)
    (h1 : 0 ≤ requests) (h2 : 0 < concurrency)
    (h3 : requests.tdiv concurrency + 10 ≤ 9223372036) :
    runDeadlineNs requests concurrency =
      some ((⌊(requests : ℚ) / (concurrency : ℚ)⌋ + 10) * 1000000000) ∧
    runDeadlineNs 9300000000 1 = some (-9146744063709551616) := by
  constructor
  · have hne : concurrency ≠ 0 := by omega
    have hq0 : 0 ≤ requests.tdiv concurrency := by
      rw [Int.tdiv_eq_ediv h1 h2.le]
      exact Int.ediv_nonneg h1 h2.le
    have hw1 : wrapInt64 (requests.tdiv concurrency) = requests.tdiv concurrency :=
      wrapInt64_eq_self _ (by omega) (by omega)
    have hw2 : wrapInt64 (requests.tdiv concurrency + 10) = requests.tdiv concurrency + 10 :=
      wrapInt64_eq_self _ (by omega) (by omega)
    have hb1 : 0 ≤ (requests.tdiv concurrency + 10) * 1000000000 :=
      mul_nonneg (by omega) (by norm_num)
    have hb2 : (requests.tdiv concurrency + 10) * 1000000000 ≤ 9223372036 * 1000000000 :=
      mul_le_mul_of_nonneg_right h3 (by norm_num)
    have hw3 : wrapInt64 ((requests.tdiv concurrency + 10) * 1000000000) =
        (requests.tdiv concurrency + 10) * 1000000000 :=
      wrapInt64_eq_self _ (by omega) (by omega)
    have hfloor : ⌊(requests : ℚ) / (concurrency : ℚ)⌋ = requests.tdiv concurrency := by
      have h4 : ((concurrency.toNat : ℕ) : ℚ) = (concurrency : ℚ) := by
        rw_mod_cast [Int.toNat_of_nonneg h2.le]
      rw [← h4, Rat.floor_intCast_div_natCast, Int.toNat_of_nonneg h2.le,
        Int.tdiv_eq_ediv h1 h2.le]
    simp [runDeadlineNs, hne, hw1, hw2, hw3, hfloor]
  · decide

/-- Witness for `runDeadline_floor_div` at requests = 5, concurrency = 2. -/
theorem runDeadline_floor_div_witness :
    runDeadlineNs 5 2 = some ((⌊(5 : ℚ) / (2 : ℚ)⌋ + 10) * 1000000000) ∧
    runDeadlineNs 9300000000 1 = some (-9146744063709551616) :=
  runDeadline_floor_div 5 2 (by decide) (by decide) (by decide)

/-- C8: for every request built by the executor, GET and DELETE attach no
body; every other method attaches the resolved body, replacing an empty body
by the literal `\x7b\x7d`, and sets the `Content-Type` header to
`application/json`. -/
theorem buildRequest_body_rules (method url body tok : String) :
    ((method = "GET" ∨ method = "DELETE") →
      (buildRequest method url body tok).body = none ∧
      (buildRequest method url body tok).contentType = none) ∧
    (¬(method = "GET" ∨ method = "DELETE") →
      (buildRequest method url body tok).body =
        some (if body = "" then "\x7b\x7d" else body) ∧
      (buildRequest method url body tok).contentType = some "application/json") := by
  constructor <;> intro h <;> simp [buildRequest, h]

/-- Witness for `buildRequest_body_rules`: a GET request carries no body,
and a POST with empty body carries `\x7b\x7d` with the JSON content type. -/
theorem buildRequest_body_rules_witness :
    ((buildRequest "GET" "u" "b" "").body = none ∧
      (buildRequest "GET" "u" "b" "").contentType = none) ∧
    ((buildRequest "POST" "u" "" "").body = some "\x7b\x7d" ∧
      (buildRequest "POST" "u" "" "").contentType = some "application/json") := by
  refine ⟨(buildRequest_body_rules "GET" "u" "b" "").1 (Or.inl rfl), ?_⟩
  have h := (buildRequest_body_rules "POST" "u" "" "").2 (by simp)
  simpa using h

/-- C9: RunTest divides the request count by the concurrency level with no
guard when computing the run deadline, so every specification with
concurrency = 0 panics with an integer division by zero before issuing any
request: the modelled run yields nothing, whatever outcomes the oracle
would have supplied. -/
theorem concurrency_zero_run_panics (cfg : TestConfiguration)
    (outcomes : List RequestResult) (wallNs : Int) (h : cfg.concurrency = 0) :
    runTest cfg outcomes wallNs = none ∧
    runDeadlineNs cfg.requests cfg.concurrency = none := by
  have hd : runDeadlineNs cfg.requests cfg.concurrency = none := by
    simp [runDeadlineNs, h]
  exact ⟨by simp [runTest, hd], hd⟩

/-- Witness for `concurrency_zero_run_panics` at a concrete zero-concurrency
specification. -/
theorem concurrency_zero_run_panics_witness :
    runTest { sampleConfig with concurrency := 0 } [] 1000000000 = none ∧
    runDeadlineNs ({ sampleConfig with concurrency := 0 }).requests
      ({ sampleConfig with concurrency := 0 }).concurrency = none :=
  concurrency_zero_run_panics { sampleConfig with concurrency := 0 } [] 1000000000 rfl

/-- C7 counterexample: a random integer variable with representable int64
bounds min = -(2^62)-1 ≤ max = 2^62 whose inclusive range size
max - min + 1 = 2^63 + 2 overflows int64: Go wraps it to a non-positive
`rand.Intn` argument and the resolution panics instead of yielding an
in-range integer. -/
theorem random_integer_range_overflow_panics :
    getVariableValue "big" { sampleCtx with vars := [bigRangeVarDef] } 0 = none ∧
    bigRangeVarDef.minValue ≤ bigRangeVarDef.maxValue := by
  exact ⟨rfl, by decide⟩

/-- C7 (amended): every resolution of a random-strategy variable of
integer type with 64-bit representable bounds min ≤ max whose inclusive
range size max - min + 1 does not overflow int64 yields a decimal integer
in [min, max]; when min = max the value is forced to min (so
min = max = 5 always yields 5).  When the range size overflows, Go wraps
it non-positive and `rand.Intn` panics. -/
theorem random_integer_within_bounds (ctx : VariableContext) (name : String)
    (v : Variable) (i : Int)
    (h1 : name ≠ "$index") (h2 : name ≠ "$random")
    (h3 : lookupVar ctx.vars name = some v)
    (h4 : v.strategy = "random") (h5 : v.type = "integer")
    (h6 : v.minValue ≤ v.maxValue)
    (h7 : -(2 ^ 63) ≤ v.minValue) (h8 : v.maxValue < 2 ^ 63)
    (h9 : v.maxValue - v.minValue + 1 < 2 ^ 63) :
    ∃ k : Int, ∃ ctx1 : VariableContext,
      getVariableValue name ctx i = some (.ok (toString k), ctx1) ∧
      v.minValue ≤ k ∧ k ≤ v.maxValue ∧
      (v.minValue = v.maxValue → k = v.minValue) := by
  have hne : v.maxValue - v.minValue + 1 ≠ 0 := by omega
  have hpos : (0 : Int) < v.maxValue - v.minValue + 1 := by omega
  have hnle : ¬ (v.maxValue - v.minValue + 1 ≤ 0) := by omega
  have hw1 : wrapInt64 (v.maxValue - v.minValue) = v.maxValue - v.minValue :=
    wrapInt64_eq_self _ (by omega) (by omega)
  have hw2 : wrapInt64 (v.maxValue - v.minValue + 1) = v.maxValue - v.minValue + 1 :=
    wrapInt64_eq_self _ (by omega) (by omega)
  have hk0 : 0 ≤ (ctx.randStream ctx.randPos : Int) % (v.maxValue - v.minValue + 1) :=
    Int.emod_nonneg _ hne
  have hk1 : (ctx.randStream ctx.randPos : Int) % (v.maxValue - v.minValue + 1) <
      v.maxValue - v.minValue + 1 :=
    Int.emod_lt_of_pos _ hpos
  have hw3 : wrapInt64
      ((ctx.randStream ctx.randPos : Int) % (v.maxValue - v.minValue + 1) + v.minValue) =
      (ctx.randStream ctx.randPos : Int) % (v.maxValue - v.minValue + 1) + v.minValue :=
    wrapInt64_eq_self _ (by omega) (by omega)
  refine ⟨(ctx.randStream ctx.randPos : Int) % (v.maxValue - v.minValue + 1) + v.minValue,
    { ctx with randPos := ctx.randPos + 1 }, ?_, ?_, ?_, ?_⟩
  · simp [getVariableValue, h1, h2, h3, h4, h5, hw1, hw2, randIntn, hnle, hw3]
  · omega
  · omega
  · intro hmm
    have h0 : v.maxValue - v.minValue + 1 = 1 := by omega
    rw [h0, Int.emod_one]
    omega

/-- Witness for `random_integer_within_bounds`: the min = max = 5 variable
in a concrete state resolves within [5, 5], forced to 5. -/
theorem random_integer_within_bounds_witness :
    ∃ k : Int, ∃ ctx1 : VariableContext,
      getVariableValue "r" { sampleCtx with vars := [fiveVarDef] } 0 =
        some (.ok (toString k), ctx1) ∧
      fiveVarDef.minValue ≤ k ∧ k ≤ fiveVarDef.maxValue ∧
      (fiveVarDef.minValue = fiveVarDef.maxValue → k = fiveVarDef.minValue) :=
  random_integer_within_bounds { sampleCtx with vars := [fiveVarDef] } "r" fiveVarDef 0
    (by decide) (by decide) (by rfl) (by rfl) (by rfl) (by decide) (by decide) (by decide)
    (by decide)


/-- Equation of `replaceVars` on the empty input. -/
theorem replaceVars_nil_eq {St : Type} (f : String → St → Option (String × St)) (st : St) :
    replaceVars f [] st = some ([], st) :=
  replaceVars.eq_3 f st

/-- Core of the never-fails contract: when the callback maps every matched
placeholder of the input to itself at the running state, the whole scan
returns the input unchanged and the state untouched. -/
theorem replaceVars_id_of_matched {St : Type} (f : String → St → Option (String × St)) :
    ∀ (N : Nat) (l : List Char), l.length ≤ N → ∀ st : St,
      (∀ n ∈ matchedNames l, f (mkMatch n) st = some (mkMatch n, st)) →
      replaceVars f l st = some (l, st) := by
  intro N
  induction N with
  | zero =>
    intro l hl st _
    have h0 : l = [] := List.eq_nil_of_length_eq_zero (Nat.le_zero.mp hl)
    subst h0
    exact replaceVars.eq_3 f st
  | succ N ih =>
    intro l hl st hf
    cases l with
    | nil => exact replaceVars.eq_3 f st
    | cons c cs =>
      by_cases hb : c = '\x7b' ∧ ∃ cs2 : List Char, cs = '\x7b' :: cs2
      · obtain ⟨hc, cs2, hcs⟩ := hb
        subst hc
        subst hcs
        cases hs : splitPlaceholder cs2 with
        | some p =>
          obtain ⟨nm, rest2⟩ := p
          obtain ⟨hshape, hnm⟩ := splitPlaceholder_eq_some cs2 nm rest2 hs
          have hmn : matchedNames ('\x7b' :: '\x7b' :: cs2) = String.mk nm :: matchedNames rest2 :=
            matchedNames_brace_some cs2 nm rest2 hs
          have hcall : f (mkMatch (String.mk nm)) st = some (mkMatch (String.mk nm), st) :=
            hf _ (by rw [hmn]; exact List.mem_cons_self _ _)
          have hlen2 := congrArg List.length hshape
          have hlen : rest2.length ≤ N := by
            simp at hlen2 hl
            omega
          have hrec : replaceVars f rest2 st = some (rest2, st) := by
            apply ih rest2 hlen st
            intro n hn
            exact hf n (by rw [hmn]; exact List.mem_cons_of_mem _ hn)
          rw [replaceVars_brace_some f cs2 nm rest2 st hs]
          rw [show mkMatch (String.mk nm) =
            String.mk ('\x7b' :: '\x7b' :: (nm ++ ['\x7d', '\x7d'])) from rfl] at hcall
          rw [hcall]
          simp only [hrec]
          simp [hshape]
        | none =>
          rw [replaceVars_brace_none f cs2 st hs]
          have hrec : replaceVars f ('\x7b' :: cs2) st = some ('\x7b' :: cs2, st) := by
            apply ih ('\x7b' :: cs2) (by simp at hl ⊢; omega) st
            intro n hn
            apply hf
            rw [matchedNames_brace_none cs2 hs]
            exact hn
          rw [hrec]
      · have hnb : ∀ rest2 : List Char, c = '\x7b' → cs = '\x7b' :: rest2 → False := by
          intro r hc hcs
          exact hb ⟨hc, r, hcs⟩
        rw [replaceVars_cons_fallback f c cs st hnb]
        have hrec : replaceVars f cs st = some (cs, st) := by
          apply ih cs (by simp at hl; omega) st
          intro n hn
          apply hf
          rw [matchedNames_cons_fallback c cs hnb]
          exact hn
        rw [hrec]

/-- On input without any opening brace the scan is the identity. -/
theorem replaceVars_no_brace {St : Type} (f : String → St → Option (String × St)) :
    ∀ (l : List Char), '\x7b' ∉ l → ∀ st : St, replaceVars f l st = some (l, st) := by
  intro l
  induction l with
  | nil => intro _ st; exact replaceVars.eq_3 f st
  | cons c cs ih =>
    intro hni st
    rw [List.mem_cons, not_or] at hni
    have hc : c ≠ '\x7b' := fun hx => hni.1 hx.symm
    rw [replaceVars_cons_fallback f c cs st (fun _ hc2 _ => hc hc2)]
    rw [ih hni.2 st]

/-- Extraction of the name from the match text: `match[2 : len(match)-2]`
recovers exactly the name the scanner matched. -/
theorem mkMatch_extract (n : String) :
    String.mk (((mkMatch n).data.drop 2).dropLast.dropLast) = n := by
  have h4 : (n.data ++ ['\x7d', '\x7d']).dropLast.dropLast = n.data := by
    rw [show (n.data ++ ['\x7d', '\x7d']) = (n.data ++ ['\x7d']) ++ ['\x7d'] by simp]
    rw [List.dropLast_concat, List.dropLast_concat]
  show String.mk ((n.data ++ ['\x7d', '\x7d']).dropLast.dropLast) = n
  rw [h4]

/-- C6 counterexample: variable resolution CAN fail hard on a reachable
input, so the unconditional never-fails claim is false: one placeholder
bound to a defined random/integer variable with max < min (range size -1)
makes `rand.Intn` panic, and the resolution of that request returns no
string at all. -/
theorem resolution_panics_on_bad_random_range :
    processVariables "\x7b\x7bbad\x7d\x7d" { sampleCtx with vars := [badVarDef] } 0 = none := by
  unfold processVariables
  rw [if_neg (by decide)]
  have h1 : splitPlaceholder ("bad\x7d\x7d").data = some ("bad".data, []) := by decide
  rw [show ("\x7b\x7bbad\x7d\x7d").data = '\x7b' :: '\x7b' :: ("bad\x7d\x7d").data from rfl]
  rw [replaceVars_brace_some _ _ _ _ _ h1]
  rw [show varCallback 0 (String.mk ('\x7b' :: '\x7b' :: ("bad".data ++ ['\x7d', '\x7d'])))
      { sampleCtx with vars := [badVarDef] } = none from rfl]

/-- C6 (amended): variable resolution never returns an error and an
undefined reference cannot abort a request: on an input whose placeholders
all refer to names absent from the runtime state (and distinct from the
built-ins), every placeholder is left verbatim — the output string is the
input itself — and resolution returns normally with a nil error and an
unchanged state.  Unconditionally over all inputs the contract fails: a
placeholder bound to a defined random/integer variable with a non-positive
int64 range size panics inside `rand.Intn` and aborts the run. -/
theorem undefined_placeholders_left_verbatim (input : String) (ctx : VariableContext) (i : Int)
    (h : ∀ n ∈ matchedNames input.data,
        n ≠ "$index" ∧ n ≠ "$random" ∧ lookupVar ctx.vars n = none) :
    processVariables input ctx i = some ((input, none), ctx) := by
  by_cases hi : input = ""
  · rw [hi]
    rfl
  · have hcb : ∀ n ∈ matchedNames input.data,
        varCallback i (mkMatch n) ctx = some (mkMatch n, ctx) := by
      intro n hn
      obtain ⟨h1, h2, h3⟩ := h n hn
      simp only [varCallback]
      rw [show String.mk (((mkMatch n).data.drop 2).dropLast.dropLast) = n from mkMatch_extract n]
      simp [getVariableValue, h1, h2, h3]
    have hrv : replaceVars (varCallback i) input.data ctx = some (input.data, ctx) :=
      replaceVars_id_of_matched (varCallback i) input.data.length input.data le_rfl ctx hcb
    unfold processVariables
    rw [if_neg hi, hrv]

/-- Witness for `undefined_placeholders_left_verbatim`: the input that is
one placeholder for the unknown name `miss`, against the empty variable
map, comes back verbatim with a nil error. -/
theorem undefined_placeholders_left_verbatim_witness :
    processVariables "\x7b\x7bmiss\x7d\x7d" sampleCtx 0 =
      some (("\x7b\x7bmiss\x7d\x7d", none), sampleCtx) := by
  apply undefined_placeholders_left_verbatim
  have h1 : splitPlaceholder ("miss\x7d\x7d").data = some ("miss".data, []) := by decide
  have h2 : matchedNames ("\x7b\x7bmiss\x7d\x7d").data = ["miss"] := by
    rw [show ("\x7b\x7bmiss\x7d\x7d").data = '\x7b' :: '\x7b' :: ("miss\x7d\x7d").data from rfl]
    rw [matchedNames_brace_some _ _ _ h1]
    rw [matchedNames.eq_3]
  rw [h2]
  intro n hn
  rw [List.mem_singleton] at hn
  subst hn
  exact ⟨by decide, by decide, by rfl⟩

/-- C10: `processVariables` returns a nil error whenever it returns at all —
every per-placeholder failure is swallowed by keeping the placeholder
verbatim — and consequently the zero-duration variable-hard-error branches
of `executeRequest` are unreachable: the variable phase never produces an
early error outcome. -/
theorem processVariables_never_errors :
    (∀ (input : String) (ctx : VariableContext) (i : Int)
        (r : (String × Option String) × VariableContext),
        processVariables input ctx i = some r → r.1.2 = none) ∧
    (∀ (cfg : TestConfiguration) (varCtx : Option VariableContext) (reqIdx now : Int)
        (res : VarPhaseResult),
        executeVarPhase cfg varCtx reqIdx now = some res →
        ∀ o : RequestResult, res ≠ .earlyError o) := by
  have hA : ∀ (input : String) (ctx : VariableContext) (i : Int)
      (r : (String × Option String) × VariableContext),
      processVariables input ctx i = some r → r.1.2 = none := by
    intro input ctx i r h
    unfold processVariables at h
    split at h
    · injection h with h1
      rw [← h1]
    · revert h
      cases hrv : replaceVars (varCallback i) input.data ctx with
      | none => intro h; exact absurd h (by simp)
      | some p =>
        intro h
        injection h with h1
        rw [← h1]
  refine ⟨hA, ?_⟩
  intro cfg varCtx reqIdx now res h o
  unfold executeVarPhase at h
  split at h
  · split at h
    · exact absurd h (by simp)
    · next u e ctx1 heq =>
      have := hA _ _ _ _ heq
      simp at this
    · next u ctx1 heq =>
      split at h
      · split at h
        · exact absurd h (by simp)
        · next b e2 ctx2 heq2 =>
          have := hA _ _ _ _ heq2
          simp at this
        · next b ctx2 heq2 =>
          injection h with h1
          rw [← h1]
          simp
      · injection h with h1
        rw [← h1]
        simp
  · injection h with h1
    rw [← h1]
    simp

/-- Witness for `processVariables_never_errors`: a concrete resolution
returns with a nil error, and a concrete variable phase proceeds to the
request build instead of an early error. -/
theorem processVariables_never_errors_witness :
    ((("ping", (none : Option String)), sampleCtx).1.2 = none) ∧
    (∀ o : RequestResult,
      (VarPhaseResult.proceed "http://localhost/ping" "" (some sampleCtx)) ≠ .earlyError o) := by
  have hp : processVariables "ping" sampleCtx 0 = some (("ping", none), sampleCtx) := by
    unfold processVariables
    rw [if_neg (by decide)]
    rw [replaceVars_no_brace (varCallback 0) ("ping").data (by decide) sampleCtx]
  have hu : processVariables sampleVarConfig.url sampleCtx 0 =
      some ((sampleVarConfig.url, none), sampleCtx) := by
    unfold processVariables
    rw [if_neg (by decide)]
    rw [replaceVars_no_brace (varCallback 0) (sampleVarConfig.url).data (by decide) sampleCtx]
  have hv : executeVarPhase sampleVarConfig (some sampleCtx) 0 0 =
      some (.proceed "http://localhost/ping" "" (some sampleCtx)) := by
    simp only [executeVarPhase, show sampleVarConfig.useVariables = true from rfl, hu]
    rw [if_neg (by decide)]
    rfl
  exact ⟨(processVariables_never_errors.1 "ping" sampleCtx 0 (("ping", none), sampleCtx) hp),
    (processVariables_never_errors.2 sampleVarConfig (some sampleCtx) 0 0 _ hv)⟩


/-- Auxiliary: after the write-through of a new cursor, looking the name up
finds the same variable with the new cursor value. -/
theorem lookupVar_updateVarCurrent (l : List Variable) (n : String) (c : Int) (v : Variable)
    (h : lookupVar l n = some v) :
    lookupVar (updateVarCurrent l n c) n = some { v with current := c } := by
  induction l with
  | nil => simp [lookupVar] at h
  | cons w t ih =>
    unfold lookupVar at h ⊢
    unfold updateVarCurrent
    rw [List.map_cons]
    by_cases hw : (w.name == n) = true
    · rw [List.find?_cons_of_pos (p := fun v => v.name == n) (a := w) t hw] at h
      injection h with h1
      subst h1
      rw [if_pos hw]
      exact List.find?_cons_of_pos (p := fun x => x.name == n)
        (a := ({ w with current := c } : Variable)) _ hw
    · rw [List.find?_cons_of_neg (p := fun v => v.name == n) (a := w) t hw] at h
      rw [if_neg hw]
      rw [List.find?_cons_of_neg (p := fun x => x.name == n) (a := w) _ hw]
      exact ih h

/-- C3 counterexample: a sequential variable with end ≤ start whose 64-bit
cursor overflows.  With start = increment = 2^62 and end = 0 the first two
resolutions in assignment order yield 2^62 and then -2^63: the cursor does
not grow monotonically (Go wraps the machine addition), refuting the claim
that with end ≤ start the cursor grows monotonically and never wraps. -/
theorem sequential_overflow_breaks_monotonicity :
    (∃ c : VariableContext,
      resolveTimes "o" { sampleCtx with vars := setupVariables [overflowVarDef] } 0 2 =
        some ([toString (4611686018427387904 : Int), toString (-9223372036854775808 : Int)], c)) ∧
    overflowVarDef.endValue ≤ overflowVarDef.startValue ∧
    0 < overflowVarDef.increment ∧
    ((-9223372036854775808 : Int) < 4611686018427387904) := by
  refine ⟨⟨_, rfl⟩, by decide, by decide, by decide⟩

/-- C3 (amended): one sequential resolution atomically returns the current
cursor and advances it by the increment (which `setupVariableContext`
defaults to 1 when the configured increment is ≤ 0, leaving a positive
increment unchanged, and starts the cursor at start), wrapping the cursor
back to start only when end > start and the advanced value exceeds end.
When end ≤ start the wrap-to-start never triggers and the cursor grows
strictly provided the 64-bit advance does not overflow; the spec trace
0,1,2,0,1 holds for start=0, end=2, increment=1 over five resolutions. -/
theorem sequential_step_spec :
    (∀ v : Variable, v.strategy = "sequential" →
      ((initVariable v).current = v.startValue ∧
        (v.increment ≤ 0 → (initVariable v).increment = 1) ∧
        (0 < v.increment → (initVariable v).increment = v.increment))) ∧
    (∀ (ctx : VariableContext) (name : String) (v : Variable) (i : Int),
      name ≠ "$index" → name ≠ "$random" →
      lookupVar ctx.vars name = some v → v.strategy = "sequential" →
      (getVariableValue name ctx i =
          some (.ok (toString v.current),
            { ctx with vars := updateVarCurrent ctx.vars name (seqNext v) }) ∧
        lookupVar ({ ctx with vars := updateVarCurrent ctx.vars name (seqNext v) }).vars name =
          some { v with current := seqNext v } ∧
        (v.endValue > v.startValue ∧ wrapInt64 (v.current + v.increment) > v.endValue →
          seqNext v = v.startValue) ∧
        (v.endValue ≤ v.startValue → seqNext v = wrapInt64 (v.current + v.increment)) ∧
        (v.endValue ≤ v.startValue → 1 ≤ v.increment →
          -(2 ^ 63) ≤ v.current + v.increment → v.current + v.increment < 2 ^ 63 →
          v.current < seqNext v))) ∧
    (∃ c : VariableContext,
      resolveTimes "c" { sampleCtx with vars := setupVariables [seqVarDef] } 0 5 =
        some (["0", "1", "2", "0", "1"], c)) := by
  refine ⟨?_, ?_, ⟨_, rfl⟩⟩
  · intro v hv
    refine ⟨?_, ?_, ?_⟩
    · simp [initVariable, hv]
      split <;> rfl
    · intro hinc
      simp [initVariable, hv, hinc]
    · intro hinc
      have : ¬ (v.increment ≤ 0) := by omega
      simp [initVariable, hv, this]
  · intro ctx name v i h1 h2 h3 h4
    refine ⟨?_, ?_, ?_, ?_, ?_⟩
    · simp [getVariableValue, h1, h2, h3, h4]
    · exact lookupVar_updateVarCurrent ctx.vars name (seqNext v) v h3
    · intro hw
      simp [seqNext, hw]
    · intro hle
      have : ¬ (v.endValue > v.startValue ∧ wrapInt64 (v.current + v.increment) > v.endValue) := by
        omega
      simp [seqNext, this]
    · intro hle hinc hlow hhigh
      have hwr : wrapInt64 (v.current + v.increment) = v.current + v.increment :=
        wrapInt64_eq_self _ hlow hhigh
      have : ¬ (v.endValue > v.startValue ∧ wrapInt64 (v.current + v.increment) > v.endValue) := by
        omega
      simp [seqNext, this, hwr]
      omega

/-- Witness for `sequential_step_spec`: its quantified parts applied to the
spec example variable in a concrete runtime state. -/
theorem sequential_step_spec_witness :
    (initVariable seqVarDef).current = seqVarDef.startValue ∧
    getVariableValue "c" { sampleCtx with vars := [initVariable seqVarDef] } 0 =
      some (.ok (toString (initVariable seqVarDef).current),
        { ({ sampleCtx with vars := [initVariable seqVarDef] } : VariableContext) with
            vars := updateVarCurrent [initVariable seqVarDef] "c"
              (seqNext (initVariable seqVarDef)) }) := by
  refine ⟨(sequential_step_spec.1 seqVarDef rfl).1, ?_⟩
  exact ((sequential_step_spec.2.1 { sampleCtx with vars := [initVariable seqVarDef] } "c"
    (initVariable seqVarDef) 0 (by decide) (by decide) (by rfl) (by rfl))).1


/-- Effect of one loop iteration on the outcome counter. -/
theorem processOutcome_totalCount (st : AggState) (r : RequestResult) :
    (processOutcome st r).totalCount = st.totalCount + 1 := by
  unfold processOutcome
  cases hre : r.error with
  | some m => rfl
  | none =>
    simp only []
    split_ifs <;> rfl

/-- Effect of one loop iteration on the success counter. -/
theorem processOutcome_successCount (st : AggState) (r : RequestResult) :
    (processOutcome st r).successCount = st.successCount + (if isSuccess r then 1 else 0) := by
  unfold processOutcome
  cases hre : r.error with
  | some m => simp [isSuccess, hre]
  | none =>
    by_cases hs : 200 ≤ r.status ∧ r.status < 400
    · have hb : isSuccess r = true := by
        simp [isSuccess, hre]
        omega
      first
        | (simp [hb, hs]; split_ifs <;> simp)
        | simp [hb, hs]
    · have hb : isSuccess r = false := by
        simp [isSuccess, hre]
        omega
      first
        | (simp [hb, hs]; split_ifs <;> simp)
        | simp [hb, hs]

/-- Effect of one loop iteration on the accumulated duration: a transport
error skips the accumulation. -/
theorem processOutcome_totalDuration (st : AggState) (r : RequestResult) :
    (processOutcome st r).totalDuration =
      st.totalDuration + (if isProcessedOk r then r.duration else 0) := by
  unfold processOutcome
  cases hre : r.error with
  | some m => simp [isProcessedOk, hre]
  | none =>
    simp [isProcessedOk, hre, apply_ite AggState.totalDuration]

/-- Effect of one loop iteration on the minimum tracker. -/
theorem processOutcome_minDuration (st : AggState) (r : RequestResult) :
    (processOutcome st r).minDuration =
      (if isProcessedOk r then min st.minDuration r.duration else st.minDuration) := by
  unfold processOutcome
  cases hre : r.error with
  | some m => simp [isProcessedOk, hre]
  | none =>
    simp [isProcessedOk, hre, apply_ite AggState.minDuration]
    by_cases hd : r.duration < st.minDuration
    · simp [hd, min_eq_right hd.le]
    · simp [hd, min_eq_left (by omega : st.minDuration ≤ r.duration)]

/-- Effect of one loop iteration on the maximum tracker. -/
theorem processOutcome_maxDuration (st : AggState) (r : RequestResult) :
    (processOutcome st r).maxDuration =
      (if isProcessedOk r then max st.maxDuration r.duration else st.maxDuration) := by
  unfold processOutcome
  cases hre : r.error with
  | some m => simp [isProcessedOk, hre]
  | none =>
    simp [isProcessedOk, hre, apply_ite AggState.maxDuration]
    by_cases hd : r.duration > st.maxDuration
    · simp [hd, max_eq_right hd.le]
    · simp [hd, max_eq_left (by omega : r.duration ≤ st.maxDuration)]

/-- The loop counts every received outcome, transport errors included. -/
theorem foldl_totalCount (l : List RequestResult) :
    ∀ st : AggState, (l.foldl processOutcome st).totalCount = st.totalCount + l.length := by
  induction l with
  | nil => intro st; simp
  | cons r t ih =>
    intro st
    rw [List.foldl_cons, ih, processOutcome_totalCount]
    simp
    omega

/-- The loop counts exactly the successes (no failure cause, status
200-399). -/
theorem foldl_successCount (l : List RequestResult) :
    ∀ st : AggState,
      (l.foldl processOutcome st).successCount = st.successCount + l.countP isSuccess := by
  induction l with
  | nil => intro st; simp
  | cons r t ih =>
    intro st
    rw [List.foldl_cons, ih, processOutcome_successCount, List.countP_cons]
    by_cases hr : isSuccess r <;> simp [hr] <;> omega

/-- The loop sums the durations of exactly the outcomes without a
transport failure. -/
theorem foldl_totalDuration (l : List RequestResult) :
    ∀ st : AggState,
      (l.foldl processOutcome st).totalDuration =
        st.totalDuration + ((l.filter isProcessedOk).map RequestResult.duration).sum := by
  induction l with
  | nil => intro st; simp
  | cons r t ih =>
    intro st
    rw [List.foldl_cons, ih, processOutcome_totalDuration, List.filter_cons]
    by_cases hr : isProcessedOk r <;> simp [hr] <;> omega

/-- The loop folds the minimum tracker over the durations of exactly the
outcomes without a transport failure. -/
theorem foldl_minDuration (l : List RequestResult) :
    ∀ st : AggState,
      (l.foldl processOutcome st).minDuration =
        ((l.filter isProcessedOk).map RequestResult.duration).foldl min st.minDuration := by
  induction l with
  | nil => intro st; simp
  | cons r t ih =>
    intro st
    rw [List.foldl_cons, ih, List.filter_cons]
    by_cases hr : isProcessedOk r <;>
      simp [hr, processOutcome_minDuration]

/-- The loop folds the maximum tracker over the durations of exactly the
outcomes without a transport failure. -/
theorem foldl_maxDuration (l : List RequestResult) :
    ∀ st : AggState,
      (l.foldl processOutcome st).maxDuration =
        ((l.filter isProcessedOk).map RequestResult.duration).foldl max st.maxDuration := by
  induction l with
  | nil => intro st; simp
  | cons r t ih =>
    intro st
    rw [List.foldl_cons, ih, List.filter_cons]
    by_cases hr : isProcessedOk r <;>
      simp [hr, processOutcome_maxDuration]

/-- C2: for every non-empty multiset of processed outcomes, the reported
success rate is 100 · successes / total, where a success has no failure
cause and a status in 200-399 and the total counts every processed outcome,
transport errors and HTTP-error statuses included. -/
theorem successRate_counts_all_processed (cfg : TestConfiguration)
    (outcomes : List RequestResult) (wallNs : Int) (h : outcomes ≠ []) :
    (buildTestResult cfg outcomes wallNs).successRate =
      100 * (outcomes.countP isSuccess : ℚ) / (outcomes.length : ℚ) := by
  have hc : (aggregate outcomes).totalCount = outcomes.length := by
    unfold aggregate
    rw [foldl_totalCount]
    simp [initAggState]
  have hsc : (aggregate outcomes).successCount = outcomes.countP isSuccess := by
    unfold aggregate
    rw [foldl_successCount]
    simp [initAggState]
  have hpos : 0 < (aggregate outcomes).totalCount := by
    rw [hc]
    exact List.length_pos.mpr h
  simp only [buildTestResult, hpos, reduceIte, if_pos]
  rw [hc, hsc]
  ring

/-- Witness for `successRate_counts_all_processed`: a success, an HTTP
error and a transport error make a 1/3 success rate. -/
theorem successRate_counts_all_processed_witness :
    (buildTestResult sampleConfig
        [{ duration := 3000000, status := 200, error := none, timestampUnix := 0 },
         { duration := 5000000, status := 500, error := none, timestampUnix := 0 },
         { duration := 0, status := 0, error := some "connection refused", timestampUnix := 0 }]
        1000000000).successRate =
      100 * (([({ duration := 3000000, status := 200, error := none, timestampUnix := 0 } : RequestResult),
         { duration := 5000000, status := 500, error := none, timestampUnix := 0 },
         { duration := 0, status := 0, error := some "connection refused", timestampUnix := 0 }].countP isSuccess : ℚ)) /
        (([({ duration := 3000000, status := 200, error := none, timestampUnix := 0 } : RequestResult),
         { duration := 5000000, status := 500, error := none, timestampUnix := 0 },
         { duration := 0, status := 0, error := some "connection refused", timestampUnix := 0 }].length : ℚ)) :=
  successRate_counts_all_processed sampleConfig _ 1000000000 (by simp)

/-- C4 counterexample: one HTTP-error outcome (status 500, 5 ms) and one
success (status 200, 3 ms).  If min/max were computed only over successes
both would be 3 ms; the code reports max = 5 ms because outcomes with
HTTP-error statuses also feed the extremes. -/
theorem minmax_include_http_error_durations :
    (buildTestResult sampleConfig
        [{ duration := 5000000, status := 500, error := none, timestampUnix := 0 },
         { duration := 3000000, status := 200, error := none, timestampUnix := 0 }]
        1000000000).maxResponseTime = 5 ∧
    specMaxSuccessMs
        [{ duration := 5000000, status := 500, error := none, timestampUnix := 0 },
         { duration := 3000000, status := 200, error := none, timestampUnix := 0 }] = 3 ∧
    (5 : ℚ) ≠ 3 := by
  refine ⟨by rfl, by rfl, by norm_num⟩

/-- C4 (amended): the reported minimum and maximum latency are computed
over the durations of all outcomes without a transport failure cause — 
HTTP-error statuses included — folded from the one-hour and zero initial
trackers, and both are reported as zero whenever no successful outcome
occurred. -/
theorem minmax_over_transport_ok_outcomes (cfg : TestConfiguration)
    (outcomes : List RequestResult) (wallNs : Int) :
    (buildTestResult cfg outcomes wallNs).minResponseTime =
      (if 0 < outcomes.countP isSuccess then
        (((((outcomes.filter isProcessedOk).map RequestResult.duration).foldl min
          3600000000000).tdiv 1000000 : Int) : ℚ)
      else 0) ∧
    (buildTestResult cfg outcomes wallNs).maxResponseTime =
      (if 0 < outcomes.countP isSuccess then
        (((((outcomes.filter isProcessedOk).map RequestResult.duration).foldl max
          0).tdiv 1000000 : Int) : ℚ)
      else 0) := by
  have hc : (aggregate outcomes).totalCount = outcomes.length := by
    unfold aggregate
    rw [foldl_totalCount]
    simp [initAggState]
  have hsc : (aggregate outcomes).successCount = outcomes.countP isSuccess := by
    unfold aggregate
    rw [foldl_successCount]
    simp [initAggState]
  have hmin : (aggregate outcomes).minDuration =
      ((outcomes.filter isProcessedOk).map RequestResult.duration).foldl min 3600000000000 := by
    unfold aggregate
    rw [foldl_minDuration]
    rfl
  have hmax : (aggregate outcomes).maxDuration =
      ((outcomes.filter isProcessedOk).map RequestResult.duration).foldl max 0 := by
    unfold aggregate
    rw [foldl_maxDuration]
    rfl
  by_cases hne : outcomes = []
  · subst hne
    simp [buildTestResult, aggregate, initAggState]
  · have hpos : 0 < (aggregate outcomes).totalCount := by
      rw [hc]
      exact List.length_pos.mpr hne
    simp only [buildTestResult, hpos, reduceIte, if_pos]
    rw [hsc, hmin, hmax]
    constructor <;> rfl

/-- C5 counterexample: one transport-error outcome of 10 ms and one
success of 4 ms.  Counting all durations the claim predicts an average of
(10+4)/2 = 7 ms; the code skips the transport-error duration in the
numerator (`continue` before the accumulation) and reports 4/2 = 2 ms. -/
theorem avg_skips_transport_error_durations :
    (buildTestResult sampleConfig
        [{ duration := 10000000, status := 0, error := some "connection refused", timestampUnix := 0 },
         { duration := 4000000, status := 200, error := none, timestampUnix := 0 }]
        1000000000).avgResponseTime = 2 ∧
    specAvgAllMs
        [{ duration := 10000000, status := 0, error := some "connection refused", timestampUnix := 0 },
         { duration := 4000000, status := 200, error := none, timestampUnix := 0 }] = 7 ∧
    (2 : ℚ) ≠ 7 := by
  refine ⟨?_, ?_, by norm_num⟩
  · have hdur : (aggregate
        [{ duration := 10000000, status := 0, error := some "connection refused", timestampUnix := 0 },
         { duration := 4000000, status := 200, error := none, timestampUnix := 0 }]).totalDuration =
        4000000 := by decide
    have hcnt : (aggregate
        [{ duration := 10000000, status := 0, error := some "connection refused", timestampUnix := 0 },
         { duration := 4000000, status := 200, error := none, timestampUnix := 0 }]).totalCount =
        2 := by decide
    have hpos : 0 < (aggregate
        [{ duration := 10000000, status := 0, error := some "connection refused", timestampUnix := 0 },
         { duration := 4000000, status := 200, error := none, timestampUnix := 0 }]).totalCount := by
      rw [hcnt]
      norm_num
    simp only [buildTestResult, hpos, reduceIte, if_pos]
    rw [hdur, hcnt]
    rw [show Int.tdiv 4000000 1000000 = 4 from by decide]
    norm_num
  · unfold specAvgAllMs
    norm_num
    rw [show Int.tdiv 14000000 1000000 = 14 from by decide]
    norm_num

/-- C5 (amended): the reported average latency divides the truncated
milliseconds of the sum of durations of the outcomes without a transport
failure (transport errors contribute to the denominator but not to the
numerator) by the count of all processed outcomes, and requests-per-second
is the count of all processed outcomes divided by the wall-clock run
duration in seconds. -/
theorem avg_and_rps_formulas (cfg : TestConfiguration)
    (outcomes : List RequestResult) (wallNs : Int)
    (h : outcomes ≠ []) (hw : 0 < wallNs) :
    (buildTestResult cfg outcomes wallNs).avgResponseTime =
      (((((outcomes.filter isProcessedOk).map RequestResult.duration).sum.tdiv 1000000 : Int)) : ℚ) /
        (outcomes.length : ℚ) ∧
    (buildTestResult cfg outcomes wallNs).requestsPerSecond =
      (outcomes.length : ℚ) / ((wallNs : ℚ) / 1000000000) := by
  have hc : (aggregate outcomes).totalCount = outcomes.length := by
    unfold aggregate
    rw [foldl_totalCount]
    simp [initAggState]
  have hd : (aggregate outcomes).totalDuration =
      ((outcomes.filter isProcessedOk).map RequestResult.duration).sum := by
    unfold aggregate
    rw [foldl_totalDuration]
    simp [initAggState]
  have hpos : 0 < (aggregate outcomes).totalCount := by
    rw [hc]
    exact List.length_pos.mpr h
  simp only [buildTestResult, hpos, reduceIte, if_pos]
  rw [hc, hd]
  exact ⟨rfl, rfl⟩

/-- Witness for `avg_and_rps_formulas` on a concrete two-outcome run. -/
theorem avg_and_rps_formulas_witness :
    (buildTestResult sampleConfig
        [{ duration := 3000000, status := 200, error := none, timestampUnix := 0 },
         { duration := 5000000, status := 500, error := none, timestampUnix := 0 }]
        2000000000).avgResponseTime =
      ((((([({ duration := 3000000, status := 200, error := none, timestampUnix := 0 } : RequestResult),
         { duration := 5000000, status := 500, error := none, timestampUnix := 0 }].filter
          isProcessedOk).map RequestResult.duration).sum.tdiv 1000000 : Int)) : ℚ) /
        (([({ duration := 3000000, status := 200, error := none, timestampUnix := 0 } : RequestResult),
         { duration := 5000000, status := 500, error := none, timestampUnix := 0 }].length : ℚ)) ∧
    (buildTestResult sampleConfig
        [{ duration := 3000000, status := 200, error := none, timestampUnix := 0 },
         { duration := 5000000, status := 500, error := none, timestampUnix := 0 }]
        2000000000).requestsPerSecond =
      (([({ duration := 3000000, status := 200, error := none, timestampUnix := 0 } : RequestResult),
         { duration := 5000000, status := 500, error := none, timestampUnix := 0 }].length : ℚ)) /
        (((2000000000 : Int) : ℚ) / 1000000000) :=
  avg_and_rps_formulas sampleConfig _ 2000000000 (by simp) (by decide)

end Buzzbench
